import Mathlib

/-!
Shallow embedding of the pythonElastic social-profile directory:
the follow-graph mutation protocol (`add_follow`, `remove_follow`),
the friend-of-friend suggestion engine (`get_user_suggestions`, plus the
status-aware variant), the match-ranking engine (`get_matches2`, the
client-side haversine variant, and `get_matches_native`, the store-native
script-sort variant), and the great-circle distance (`calculate_distance`).

The Elasticsearch store is modelled as an association list from integer
ids to documents; search returns hits in store order.  Each mutating or
searching operation additionally returns a trace of store effects
(`Eff.update`, `Eff.search`) so that claims about "no write issued" and
"zero search calls" are expressible.
-/

namespace PyElastic

/-- Gender enum from models.py. -/
inductive Gender | male | female
deriving DecidableEq, Repr

/-- Marital-status enum from models.py. -/
inductive Status | married | single
deriving DecidableEq, Repr

/-- An Elasticsearch document for one user.  Fields that the Python code
reads with `source.get(key, default)` are total with that default
(`following`, `hobbies`); fields whose presence the code tests
(`x`, `y`, `location`) are `Option`s.  Coordinates are modelled as reals. -/
structure Doc where
  name : String := ""
  gender : Gender := .male
  status : Status := .single
  following : List Int := []
  location : Option (ℝ × ℝ) := none
  x : Option ℝ := none
  y : Option ℝ := none
  hobbies : List String := []

/-- The store: documents keyed by integer id, in index order
(search hits are returned in this order). -/
abbrev Store := List (Int × Doc)

/-- `es.get` / `es.exists`: first document with the given id. -/
def Store.getDoc : Store → Int → Option Doc
  | [], _ => none
  | (j, d) :: s, i => if j = i then some d else Store.getDoc s i

/-- `es.update(id, body=(doc: (following: fl)))`: partial update of the
`following` field of every document keyed `i`. -/
def Store.updateFollowing : Store → Int → List Int → Store
  | [], _, _ => []
  | (k, d) :: s, i, fl =>
    (if k = i then (k, { d with following := fl }) else (k, d)) ::
      Store.updateFollowing s i fl

/-- `es.search` with filter `status = single` and `must_not _id = uid`:
hits in store order. -/
def Store.searchSingles (s : Store) (uid : Int) : List (Int × Doc) :=
  s.filter (fun p => decide (p.2.status = Status.single) && decide (p.1 ≠ uid))

/-- Error taxonomy: HTTP 404 bodies become `notFound`, HTTP 400 bodies
become `invalidArgument`, each carrying the `detail` string. -/
inductive Err
  | notFound (detail : String)
  | invalidArgument (detail : String)
deriving DecidableEq, Repr

/-- Store effects traced by the operations: a partial update of a
`following` field, or an `es.search` call. -/
inductive Eff
  | update (id : Int) (following : List Int)
  | search
deriving DecidableEq, Repr

/-- routes/follow.py `add_follow`: existence checks on follower then
target, then the self-follow check, then read-modify-write that is
skipped when the target is already followed. -/
def add_follow (s : Store) (id fid : Int) :
    Except Err (Store × List Int) × List Eff :=
  match s.getDoc id with
  | none => (.error (.notFound "User not found"), [])
  | some d =>
    if (s.getDoc fid).isNone then
      (.error (.notFound "Follow user not found"), [])
    else if id = fid then
      (.error (.invalidArgument "Cannot follow self"), [])
    else if fid ∈ d.following then
      (.ok (s, d.following), [])
    else
      let fl := d.following ++ [fid]
      (.ok (s.updateFollowing id fl, fl), [Eff.update id fl])

/-- routes/follow.py `remove_follow`: existence checks, then filter the
target out of `following` and persist unconditionally. -/
def remove_follow (s : Store) (id fid : Int) :
    Except Err (Store × List Int) × List Eff :=
  match s.getDoc id with
  | none => (.error (.notFound "User not found"), [])
  | some d =>
    if (s.getDoc fid).isNone then
      (.error (.notFound "Follow user not found"), [])
    else
      let fl := d.following.filter (fun f => decide (f ≠ fid))
      (.ok (s.updateFollowing id fl, fl), [Eff.update id fl])

/-! ## Geo math -/

/-- Python `math.radians`. -/
noncomputable def radians (x : ℝ) : ℝ := x * (Real.pi / 180)

/-- Python `math.atan2 y x`, i.e. the argument of the complex number
`x + y i`. -/
noncomputable def atan2 (y x : ℝ) : ℝ := Complex.arg ⟨x, y⟩

/-- `calculate_distance` from Matches 2.py: the haversine great-circle
distance with mean Earth radius 6371.0 km, all angles converted to
radians. -/
noncomputable def calculate_distance (lat1 lon1 lat2 lon2 : ℝ) : ℝ :=
  let R : ℝ := 6371.0
  let l1 := radians lat1
  let m1 := radians lon1
  let l2 := radians lat2
  let m2 := radians lon2
  let dlat := l2 - l1
  let dlon := m2 - m1
  let a := Real.sin (dlat / 2) ^ 2 +
    Real.cos l1 * Real.cos l2 * Real.sin (dlon / 2) ^ 2
  let c := 2 * atan2 (Real.sqrt a) (Real.sqrt (1 - a))
  R * c

/-! ## Match ranking -/

/-- The pydantic `User` response model of models.py: the fields kept in
a `User(id=..., **source)` construction. -/
structure UserOut where
  id : Int
  name : String
  gender : Gender
  status : Status
  following : List Int
  location : Option (ℝ × ℝ)

/-- The user value built from a hit in the matches endpoints: the raw
document with `location` reshaped from the `x`/`y` fields (defaulting to
`(0, 0)` when either is absent). -/
def mkMatchUser (mid : Int) (d : Doc) : UserOut :=
  { id := mid
    name := d.name
    gender := d.gender
    status := d.status
    following := d.following
    location := match d.x, d.y with
      | some x, some y => some (x, y)
      | _, _ => some (0, 0) }

/-- One scored candidate record in the client-side matches pipeline:
the output user, the common-hobby count, and the distance. -/
structure MatchRec where
  user : UserOut
  common : ℕ
  dist : ℝ

/-- `len(user_hobbies.intersection(match_hobbies))` where both hobby
lists are converted to sets. -/
def commonHobbies (u c : Doc) : ℕ :=
  (u.hobbies.toFinset ∩ c.hobbies.toFinset).card

/-- The sort key of Matches 2.py / Matches 3.py: `(-common, distance)`. -/
def MatchRec.key (r : MatchRec) : ℤ × ℝ := (-(r.common : ℤ), r.dist)

/-- Lexicographic `≤` on sort keys, as Python tuple comparison orders
them. -/
def KeyLE (r₁ r₂ : MatchRec) : Prop :=
  (-(r₁.common : ℤ)) < (-(r₂.common : ℤ)) ∨
    ((-(r₁.common : ℤ)) = (-(r₂.common : ℤ)) ∧ r₁.dist ≤ r₂.dist)

open Classical in
/-- Boolean comparison used by the stable sort of the client-side
pipeline. -/
noncomputable def keyLe (r₁ r₂ : MatchRec) : Bool := decide (KeyLE r₁ r₂)

/-- The scored record built for one hit in Matches 2.py:
`calculate_distance(user_location[1], user_location[0],
match_location[1], match_location[0])` with `[x, y]` locations, so
latitude is `y` and longitude is `x`, both defaulting to 0. -/
noncomputable def mkRec2 (u : Doc) (p : Int × Doc) : MatchRec :=
  { user := mkMatchUser p.1 p.2
    common := commonHobbies u p.2
    dist := calculate_distance (u.y.getD 0) (u.x.getD 0)
      (p.2.y.getD 0) (p.2.x.getD 0) }

/-- `get_matches` from Matches 2.py (client-side formulation): gate on
the requester's status, search all other singles, score each hit, sort
stably by `(-common, distance)`, and return the user projections. -/
noncomputable def get_matches2 (s : Store) (uid : Int) :
    Except Err (List UserOut) × List Eff :=
  match s.getDoc uid with
  | none => (.error (.notFound "User not found"), [])
  | some d =>
    if d.status ≠ Status.single then (.ok [], [])
    else
      let recs := (s.searchSingles uid).map (mkRec2 d)
      (.ok ((recs.mergeSort keyLe).map MatchRec.user), [Eff.search])

/-- The painless sort script of Matches.py, run per candidate document:
it iterates the requester's raw `hobbies` *list* (`params.user_hobbies`,
duplicates included) and counts the entries contained in the candidate's
hobbies, so a duplicated requester hobby is counted once per occurrence. -/
def scriptCommon (userHobbies : List String) (c : Doc) : ℕ :=
  (userHobbies.filter (fun h => decide (h ∈ c.hobbies))).length

/-- Lexicographic comparison realising the two-level Elasticsearch sort
of Matches.py: script score (common count) descending, then geo distance
from the requester ascending. -/
def NativeLE (u : Doc) (p q : Int × Doc) : Prop :=
  (-(scriptCommon u.hobbies p.2 : ℤ)) < (-(scriptCommon u.hobbies q.2 : ℤ)) ∨
    ((-(scriptCommon u.hobbies p.2 : ℤ)) = (-(scriptCommon u.hobbies q.2 : ℤ)) ∧
      calculate_distance (u.y.getD 0) (u.x.getD 0) (p.2.y.getD 0) (p.2.x.getD 0) ≤
        calculate_distance (u.y.getD 0) (u.x.getD 0) (q.2.y.getD 0) (q.2.x.getD 0))

open Classical in
/-- Boolean form of `NativeLE`. -/
noncomputable def nativeLe (u : Doc) (p q : Int × Doc) : Bool := decide (NativeLE u p q)

/-- Modelled from the spec: the sorted search executed inside
Elasticsearch by Matches.py is not itself Python source; per §4.3 the
store-native sort must realise the same observable contract — descending
common-interest count (the painless script above, which is in the
source), then ascending great-circle distance (haversine, R = 6371 km)
from the requester, stably over store order. -/
noncomputable def esSortMatches (u : Doc) (hits : List (Int × Doc)) : List (Int × Doc) :=
  hits.mergeSort (nativeLe u)

/-- `get_matches` from Matches.py (store-native formulation): gate on the
requester's status, then a single sorted search whose hits are mapped to
users in the order the store returned them. -/
noncomputable def get_matches_native (s : Store) (uid : Int) :
    Except Err (List UserOut) × List Eff :=
  match s.getDoc uid with
  | none => (.error (.notFound "User not found"), [])
  | some d =>
    if d.status ≠ Status.single then (.ok [], [])
    else
      (.ok ((esSortMatches d (s.searchSingles uid)).map (fun p => mkMatchUser p.1 p.2)),
        [Eff.search])

/-! ## Suggestions -/

/-- One iteration of step 2 of main.py `get_user_suggestions`: if the
first-degree neighbour exists, union its `following` list into the set. -/
def suggestStep (s : Store) (acc : Finset Int) (fid : Int) : Finset Int :=
  match s.getDoc fid with
  | some fd => acc ∪ fd.following.toFinset
  | none => acc

/-- Step 2 of main.py `get_user_suggestions`: union the `following`
lists of the existing first-degree neighbours into a set. -/
def suggestedIds (s : Store) (following : List Int) : Finset Int :=
  following.foldl (suggestStep s) ∅

/-- `for fid in following: suggested_ids.discard(fid)`. -/
def discardAll (ids : Finset Int) (following : List Int) : Finset Int :=
  following.foldl (fun acc fid => acc.erase fid) ids

/-- The `UserSuggestion` response model of main.py. -/
structure UserSuggestion where
  id : Int
  gender : Gender
  status : Status
  location : Option (ℝ × ℝ)

/-- `UserSuggestion(id=sid, gender=..., status=..., location=...)`. -/
def mkSuggestion (sid : Int) (d : Doc) : UserSuggestion :=
  { id := sid, gender := d.gender, status := d.status, location := d.location }

/-- main.py `get_user_suggestions`: second-degree candidate set minus
self and first-degree follows, materialised by a second existence check
per id.  Python iterates the candidate `set` in unspecified order; the
model iterates it in ascending id order. -/
def get_user_suggestions (s : Store) (uid : Int) : Except Err (List UserSuggestion) :=
  match s.getDoc uid with
  | none => .error (.notFound "User not found")
  | some d =>
    let cand := discardAll ((suggestedIds s d.following).erase uid) d.following
    .ok ((cand.sort (· ≤ ·)).filterMap
      (fun sid => (s.getDoc sid).map (mkSuggestion sid)))

/-- The user value built for one suggestion in the status-aware variant
(Matches.py): the stored fields, but `following` hard-coded to `[]`. -/
def mkSuggestionUser (sid : Int) (d : Doc) : UserOut :=
  { id := sid
    name := d.name
    gender := d.gender
    status := d.status
    following := []
    location := d.location }

/-- `get_user_suggestions` from Matches.py (status-aware variant): gated
on the requester being single, and each candidate kept only when its own
status is single. -/
def get_user_suggestions_status (s : Store) (uid : Int) : Except Err (List UserOut) :=
  match s.getDoc uid with
  | none => .error (.notFound "User not found")
  | some d =>
    if d.status ≠ Status.single then .ok []
    else
      let cand := discardAll ((suggestedIds s d.following).erase uid) d.following
      .ok ((cand.sort (· ≤ ·)).filterMap
        (fun sid => (s.getDoc sid).bind
          (fun dd => if dd.status = Status.single then some (mkSuggestionUser sid dd) else none)))

/-! ## Concrete stores used by the witnesses and the counterexample -/

/-- A follower document already following user 2. -/
def followerDoc : Doc := { following := [2] }

/-- A follower (id 1, already following 2) and a target (id 2). -/
def followStore : Store := [(1, followerDoc), (2, {})]

/-- A married user document. -/
def marriedDoc : Doc := { status := Status.married }

/-- A store whose only user (id 1) is married. -/
def marriedStore : Store := [(1, marriedDoc)]

/-- A single user at the origin with one hobby. -/
def matchDoc : Doc :=
  { status := Status.single, hobbies := ["a"], x := some 0, y := some 0 }

/-- A single requester (id 1) and one single candidate (id 2), both at
the origin with one shared hobby. -/
def matchStore : Store := [(1, matchDoc), (2, matchDoc)]

/-- A user following user 2 only. -/
def suggesterDoc : Doc := { following := [2] }

/-- User 1 follows 2; user 2 follows 3 and 1; user 3 is a fresh
second-degree neighbour. -/
def suggestStore : Store :=
  [(1, suggesterDoc), (2, { following := [3, 1] }), (3, {})]

/-- A single requester at the origin whose stored hobby list contains a
duplicated tag. -/
def dupDocReq : Doc :=
  { status := Status.single, hobbies := ["a", "a", "b"], x := some 0, y := some 0 }

/-- A single candidate holding the duplicated tag, one degree of
latitude away from the origin. -/
def dupDocX : Doc :=
  { status := Status.single, hobbies := ["a"], x := some 0, y := some 1 }

/-- A single candidate holding one other requester tag, at the
requester's position. -/
def dupDocY : Doc :=
  { status := Status.single, hobbies := ["b", "c"], x := some 0, y := some 0 }

/-- The store on which the two match formulations order candidates
differently. -/
def dupStore : Store := [(1, dupDocReq), (2, dupDocX), (3, dupDocY)]

/-! ## Store lemmas -/

theorem getDoc_updateFollowing (s : Store) (i j : Int) (fl : List Int) :
    (s.updateFollowing i fl).getDoc j =
      if j = i then (s.getDoc j).map (fun d => { d with following := fl })
      else s.getDoc j := by
  induction s with
  | nil => simp [Store.updateFollowing, Store.getDoc]
  | cons p s ih =>
    obtain ⟨k, d⟩ := p
    by_cases hk : k = i
    · subst hk
      by_cases hj : k = j
      · subst hj
        simp only [Store.updateFollowing, if_true]
        simp [Store.getDoc]
      · have hji : ¬(j = k) := fun h => hj h.symm
        simp only [Store.updateFollowing, if_true]
        simp [Store.getDoc, hj, hji, ih]
    · by_cases hj : k = j
      · subst hj
        simp only [Store.updateFollowing]
        rw [if_neg hk]
        simp [Store.getDoc, hk]
      · simp only [Store.updateFollowing]
        rw [if_neg hk]
        simp [Store.getDoc, hj, ih]

/-! ## Sort-key lemmas -/

theorem KeyLE_trans (a b c : MatchRec) (h₁ : KeyLE a b) (h₂ : KeyLE b c) :
    KeyLE a c := by
  rcases h₁ with h₁ | ⟨e₁, d₁⟩ <;> rcases h₂ with h₂ | ⟨e₂, d₂⟩
  · exact Or.inl (h₁.trans h₂)
  · exact Or.inl (e₂ ▸ h₁)
  · exact Or.inl (e₁ ▸ h₂)
  · exact Or.inr ⟨e₁.trans e₂, d₁.trans d₂⟩

theorem KeyLE_total (a b : MatchRec) : KeyLE a b ∨ KeyLE b a := by
  rcases lt_trichotomy (-(a.common : ℤ)) (-(b.common : ℤ)) with h | h | h
  · exact Or.inl (Or.inl h)
  · rcases le_total a.dist b.dist with hd | hd
    · exact Or.inl (Or.inr ⟨h, hd⟩)
    · exact Or.inr (Or.inr ⟨h.symm, hd⟩)
  · exact Or.inr (Or.inl h)

theorem KeyLE_of_key_eq {a b : MatchRec} (h : a.key = b.key) : KeyLE a b := by
  have h₁ : (-(a.common : ℤ)) = (-(b.common : ℤ)) := congrArg Prod.fst h
  have h₂ : a.dist = b.dist := congrArg Prod.snd h
  exact Or.inr ⟨h₁, le_of_eq h₂⟩

open Classical in
theorem keyLe_trans (a b c : MatchRec) (h₁ : keyLe a b = true)
    (h₂ : keyLe b c = true) : keyLe a c = true := by
  simp only [keyLe, decide_eq_true_eq] at *
  exact KeyLE_trans a b c h₁ h₂

theorem keyLe_total (a b : MatchRec) : (keyLe a b || keyLe b a) = true := by
  rcases KeyLE_total a b with h | h <;>
    simp [keyLe, h]

/-! ## Geo-math lemmas -/

theorem calculate_distance_symm (lat1 lon1 lat2 lon2 : ℝ) :
    calculate_distance lat1 lon1 lat2 lon2 =
      calculate_distance lat2 lon2 lat1 lon1 := by
  have h : ∀ x y : ℝ, Real.sin ((x - y) / 2) ^ 2 = Real.sin ((y - x) / 2) ^ 2 := by
    intro x y
    rw [show (x - y) / 2 = -((y - x) / 2) by ring, Real.sin_neg, neg_sq]
  simp only [calculate_distance]
  rw [h (radians lat2) (radians lat1), h (radians lon2) (radians lon1),
    mul_comm (Real.cos (radians lat1))]

theorem calculate_distance_self (lat lon : ℝ) :
    calculate_distance lat lon lat lon = 0 := by
  have h1 : ((⟨1, 0⟩ : ℂ)) = 1 := by
    refine Complex.ext ?_ ?_ <;> simp
  simp [calculate_distance, atan2, sub_self, h1, Complex.arg_one]

theorem atan2_pos_of_im_pos {y x : ℝ} (hy : 0 < y) : 0 < atan2 y x := by
  have hnn : 0 ≤ atan2 y x := Complex.arg_nonneg_iff.mpr (le_of_lt hy)
  rcases lt_or_eq_of_le hnn with h | h
  · exact h
  · exfalso
    have him : (⟨x, y⟩ : ℂ).im = 0 := (Complex.arg_eq_zero_iff.mp h.symm).2
    exact absurd him (ne_of_gt hy)

theorem calculate_distance_pos (lat1 lon1 lat2 lon2 : ℝ)
    (h : 0 < Real.sin ((radians lat2 - radians lat1) / 2) ^ 2 +
      Real.cos (radians lat1) * Real.cos (radians lat2) *
        Real.sin ((radians lon2 - radians lon1) / 2) ^ 2) :
    0 < calculate_distance lat1 lon1 lat2 lon2 := by
  simp only [calculate_distance]
  have hs : 0 < Real.sqrt (Real.sin ((radians lat2 - radians lat1) / 2) ^ 2 +
      Real.cos (radians lat1) * Real.cos (radians lat2) *
        Real.sin ((radians lon2 - radians lon1) / 2) ^ 2) :=
    Real.sqrt_pos.mpr h
  have := atan2_pos_of_im_pos (x := Real.sqrt (1 -
      (Real.sin ((radians lat2 - radians lat1) / 2) ^ 2 +
        Real.cos (radians lat1) * Real.cos (radians lat2) *
          Real.sin ((radians lon2 - radians lon1) / 2) ^ 2))) hs
  positivity

/-- The haversine distance across one degree of latitude is positive. -/
theorem calculate_distance_one_lat_pos : 0 < calculate_distance 0 0 1 0 := by
  apply calculate_distance_pos
  have hpi := Real.pi_pos
  have hppos : 0 < (Real.pi / 180 - 0) / 2 := by linarith
  have hplt : (Real.pi / 180 - 0) / 2 < Real.pi := by linarith
  have hsin := Real.sin_pos_of_pos_of_lt_pi hppos hplt
  have h0 : radians 0 = 0 := by simp [radians]
  have h1 : radians 1 = Real.pi / 180 := by simp [radians]
  rw [h0, h1]
  simp only [sub_self, zero_div, Real.sin_zero]
  have : (0 : ℝ) < Real.sin ((Real.pi / 180 - 0) / 2) ^ 2 := pow_pos hsin 2
  nlinarith [this]

/-! ## Small sorting lemma -/

theorem mergeSort_pair {α : Type} (le : α → α → Bool) (a b : α) :
    List.mergeSort [a, b] le = if le a b = true then [a, b] else [b, a] := by
  rw [List.mergeSort]
  simp [List.mergeSort, List.merge]

/-! ## Hobby-count and suggestion-set lemmas -/

theorem scriptCommon_eq_commonHobbies (u : Doc) (h : u.hobbies.Nodup) (c : Doc) :
    scriptCommon u.hobbies c = commonHobbies u c := by
  have hfin : (u.hobbies.filter (fun t => decide (t ∈ c.hobbies))).toFinset =
      u.hobbies.toFinset ∩ c.hobbies.toFinset := by
    ext a
    simp [List.mem_filter]
  rw [scriptCommon, commonHobbies, ← hfin,
    List.toFinset_card_of_nodup (h.filter _)]

open Classical in
theorem nativeLe_eq_keyLe (u : Doc) (h : u.hobbies.Nodup) (p q : Int × Doc) :
    nativeLe u p q = keyLe (mkRec2 u p) (mkRec2 u q) := by
  simp only [nativeLe, keyLe]
  rw [decide_eq_decide]
  simp only [NativeLE, KeyLE, mkRec2, scriptCommon_eq_commonHobbies u h]

theorem mem_foldl_suggestStep (s : Store) (F : List Int) (acc : Finset Int) (x : Int) :
    x ∈ F.foldl (suggestStep s) acc ↔
      x ∈ acc ∨ ∃ f ∈ F, ∃ df, s.getDoc f = some df ∧ x ∈ df.following := by
  induction F generalizing acc with
  | nil => simp
  | cons f F ih =>
    rw [List.foldl_cons, ih]
    cases hf : s.getDoc f with
    | none =>
      simp only [suggestStep, hf, List.mem_cons]
      constructor
      · rintro (hx | hx)
        · exact Or.inl hx
        · obtain ⟨g, hg, hrest⟩ := hx
          exact Or.inr ⟨g, Or.inr hg, hrest⟩
      · rintro (hx | ⟨g, (rfl | hg), hrest⟩)
        · exact Or.inl hx
        · obtain ⟨df, hdf, -⟩ := hrest
          rw [hf] at hdf
          cases hdf
        · exact Or.inr ⟨g, hg, hrest⟩
    | some fd =>
      simp only [suggestStep, hf, Finset.mem_union, List.mem_toFinset, List.mem_cons]
      constructor
      · rintro ((hx | hx) | hx)
        · exact Or.inl hx
        · exact Or.inr ⟨f, Or.inl rfl, fd, hf, hx⟩
        · obtain ⟨g, hg, hrest⟩ := hx
          exact Or.inr ⟨g, Or.inr hg, hrest⟩
      · rintro (hx | ⟨g, (rfl | hg), hrest⟩)
        · exact Or.inl (Or.inl hx)
        · obtain ⟨df, hdf, hmem⟩ := hrest
          rw [hf] at hdf
          cases hdf
          exact Or.inl (Or.inr hmem)
        · exact Or.inr ⟨g, hg, hrest⟩

theorem mem_suggestedIds (s : Store) (F : List Int) (x : Int) :
    x ∈ suggestedIds s F ↔
      ∃ f ∈ F, ∃ df, s.getDoc f = some df ∧ x ∈ df.following := by
  rw [suggestedIds, mem_foldl_suggestStep]
  simp

theorem mem_discardAll (ids : Finset Int) (F : List Int) (x : Int) :
    x ∈ discardAll ids F ↔ x ∈ ids ∧ x ∉ F := by
  induction F generalizing ids with
  | nil => simp [discardAll]
  | cons f F ih =>
    have hstep : discardAll ids (f :: F) = discardAll (ids.erase f) F := rfl
    rw [hstep, ih]
    simp only [Finset.mem_erase, List.mem_cons]
    constructor
    · rintro ⟨⟨hne, hmem⟩, hnin⟩
      exact ⟨hmem, by rintro (rfl | hf) <;> [exact hne rfl; exact hnin hf]⟩
    · rintro ⟨hmem, hnin⟩
      exact ⟨⟨fun h => hnin (Or.inl h), hmem⟩, fun h => hnin (Or.inr h)⟩

/-! ## Claims -/

/-- C8: The great-circle distance function is symmetric and zero on the
diagonal: for all points P and Q, `calculate_distance` — the haversine
formula with mean Earth radius 6371.0 km and all angles in radians —
satisfies `greatCircle(P, Q) = greatCircle(Q, P)` and
`greatCircle(P, P) = 0`. -/
theorem distance_symm_and_self_zero :
    (∀ lat1 lon1 lat2 lon2 : ℝ,
      calculate_distance lat1 lon1 lat2 lon2 =
        calculate_distance lat2 lon2 lat1 lon1) ∧
    (∀ lat lon : ℝ, calculate_distance lat lon lat lon = 0) :=
  ⟨calculate_distance_symm, calculate_distance_self⟩

/-- C6: For every existing user whose status is not single, Matches
returns the empty sequence immediately with zero search calls, in both
the client-side and the store-native formulation (the trace contains no
`Eff.search`). -/
theorem match_gate_married (s : Store) (uid : Int) (d : Doc)
    (hd : s.getDoc uid = some d) (hs : d.status ≠ Status.single) :
    get_matches2 s uid = (.ok [], []) ∧
    get_matches_native s uid = (.ok [], []) := by
  constructor <;> simp [get_matches2, get_matches_native, hd, hs]

/-- Witness for C6 at the one-married-user store. -/
theorem match_gate_married_witness :
    marriedStore.getDoc 1 = some marriedDoc ∧
    marriedDoc.status ≠ Status.single ∧
    get_matches2 marriedStore 1 = (.ok [], []) ∧
    get_matches_native marriedStore 1 = (.ok [], []) :=
  ⟨rfl, by decide,
    (match_gate_married marriedStore 1 marriedDoc rfl (by decide)).1,
    (match_gate_married marriedStore 1 marriedDoc rfl (by decide)).2⟩

/-- C5: `AddFollow` fails with `InvalidArgument` on a self-follow of an
existing profile, issuing no write (empty trace, store untouched since
no updated store is returned), and fails with `NotFound` naming the
missing id when the follower or the target does not exist. -/
theorem add_follow_error_contract (s : Store) (f t : Int) :
    ((s.getDoc f).isSome → f = t →
      add_follow s f t = (.error (.invalidArgument "Cannot follow self"), [])) ∧
    (s.getDoc f = none →
      add_follow s f t = (.error (.notFound "User not found"), [])) ∧
    ((s.getDoc f).isSome → s.getDoc t = none →
      add_follow s f t = (.error (.notFound "Follow user not found"), [])) := by
  refine ⟨?_, ?_, ?_⟩
  · intro hf hft
    subst hft
    obtain ⟨d, hd⟩ := Option.isSome_iff_exists.mp hf
    simp [add_follow, hd]
  · intro hf
    simp [add_follow, hf]
  · intro hf ht
    obtain ⟨d, hd⟩ := Option.isSome_iff_exists.mp hf
    simp [add_follow, hd, ht]

/-- Witness for C5: a self-follow of the existing user 1 and a follow of
the missing user 5. -/
theorem add_follow_error_contract_witness :
    (followStore.getDoc 1).isSome = true ∧
    add_follow followStore 1 1 = (.error (.invalidArgument "Cannot follow self"), []) ∧
    followStore.getDoc 5 = none ∧
    add_follow followStore 1 5 = (.error (.notFound "Follow user not found"), []) :=
  ⟨rfl, (add_follow_error_contract followStore 1 1).1 rfl rfl, rfl,
    (add_follow_error_contract followStore 1 5).2.2 rfl rfl⟩

/-- C9: Because the existence checks run before the self-follow check,
`AddFollow(x, x)` for a missing id x fails with `NotFound`, not
`InvalidArgument`; `InvalidArgument` is returned for a self-follow only
when the profile exists. -/
theorem self_follow_check_order (s : Store) (x : Int) :
    (s.getDoc x = none →
      add_follow s x x = (.error (.notFound "User not found"), [])) ∧
    ((s.getDoc x).isSome →
      add_follow s x x = (.error (.invalidArgument "Cannot follow self"), [])) := by
  constructor
  · intro hx
    simp [add_follow, hx]
  · intro hx
    obtain ⟨d, hd⟩ := Option.isSome_iff_exists.mp hx
    simp [add_follow, hd]

/-- Witness for C9: self-follow of the missing id 5 versus the existing
id 1. -/
theorem self_follow_check_order_witness :
    followStore.getDoc 5 = none ∧
    add_follow followStore 5 5 = (.error (.notFound "User not found"), []) ∧
    (followStore.getDoc 1).isSome = true ∧
    add_follow followStore 1 1 = (.error (.invalidArgument "Cannot follow self"), []) :=
  ⟨rfl, (self_follow_check_order followStore 5).1 rfl, rfl,
    (self_follow_check_order followStore 1).2 rfl⟩

/-- C4: For every existing follower/target pair, `RemoveFollow` removes
the target from the follower's following set if present, succeeds
leaving the value unchanged when absent, always issues the persist write
(the trace always holds the update), and returns the post-mutation
following set. -/
theorem remove_follow_contract (s : Store) (f t : Int) (d : Doc)
    (hd : s.getDoc f = some d) (ht : (s.getDoc t).isSome) :
    ∃ fl, remove_follow s f t =
        (.ok (s.updateFollowing f fl, fl), [Eff.update f fl]) ∧
      (∀ x, x ∈ fl ↔ x ∈ d.following ∧ x ≠ t) ∧
      (t ∉ d.following → fl = d.following) := by
  refine ⟨d.following.filter (fun x => decide (x ≠ t)), ?_, ?_, ?_⟩
  · obtain ⟨dt, hdt⟩ := Option.isSome_iff_exists.mp ht
    simp [remove_follow, hd, hdt]
  · intro x
    simp [List.mem_filter]
  · intro hnin
    apply List.filter_eq_self.mpr
    intro a ha
    simp only [decide_eq_true_eq]
    rintro rfl
    exact hnin ha

/-- Witness for C4: removing the followed user 2 from follower 1. -/
theorem remove_follow_contract_witness :
    followStore.getDoc 1 = some followerDoc ∧
    (followStore.getDoc 2).isSome = true ∧
    ∃ fl, remove_follow followStore 1 2 =
        (.ok (followStore.updateFollowing 1 fl, fl), [Eff.update 1 fl]) ∧
      (∀ x, x ∈ fl ↔ x ∈ followerDoc.following ∧ x ≠ 2) ∧
      (2 ∉ followerDoc.following → fl = followerDoc.following) :=
  ⟨rfl, rfl, remove_follow_contract followStore 1 2 followerDoc rfl rfl⟩

/-- C3: `AddFollow` is idempotent: for an existing follower/target pair,
if the target is already followed the call issues no write (empty trace,
unchanged store) and returns success, a second call returns exactly the
first call's result with no write, the returned set holds the target
exactly once, and otherwise the target is appended and the updated set
persisted. -/
theorem add_follow_idempotent (s : Store) (f t : Int) (d : Doc)
    (hd : s.getDoc f = some d) (ht : (s.getDoc t).isSome) (hft : f ≠ t)
    (hcount : d.following.count t ≤ 1) :
    ∃ s₁ fl tr,
      add_follow s f t = (.ok (s₁, fl), tr) ∧
      fl.count t = 1 ∧
      (t ∈ d.following → s₁ = s ∧ fl = d.following ∧ tr = []) ∧
      (t ∉ d.following → fl = d.following ++ [t] ∧ tr = [Eff.update f fl]) ∧
      add_follow s₁ f t = (.ok (s₁, fl), []) := by
  obtain ⟨dt, hdt⟩ := Option.isSome_iff_exists.mp ht
  by_cases hmem : t ∈ d.following
  · refine ⟨s, d.following, [], ?_, ?_, fun _ => ⟨rfl, rfl, rfl⟩,
      fun hn => absurd hmem hn, ?_⟩
    · simp [add_follow, hd, hdt, hft, hmem]
    · have h0 : ¬d.following.count t = 0 := fun h => (List.count_eq_zero.mp h) hmem
      omega
    · simp [add_follow, hd, hdt, hft, hmem]
  · refine ⟨s.updateFollowing f (d.following ++ [t]), d.following ++ [t],
      [Eff.update f (d.following ++ [t])], ?_, ?_,
      fun hmem2 => absurd hmem2 hmem, fun _ => ⟨rfl, rfl⟩, ?_⟩
    · simp [add_follow, hd, hdt, hft, hmem]
    · have h0 : d.following.count t = 0 := List.count_eq_zero.mpr hmem
      rw [List.count_append, h0]
      simp
    · have hd1 : (s.updateFollowing f (d.following ++ [t])).getDoc f =
          some { d with following := d.following ++ [t] } := by
        rw [getDoc_updateFollowing]
        simp [hd]
      have ht1 : ((s.updateFollowing f (d.following ++ [t])).getDoc t) =
          s.getDoc t := by
        rw [getDoc_updateFollowing, if_neg (show ¬(t = f) from fun h => hft h.symm)]
      simp [add_follow, hd1, ht1, hdt, hft]

/-- Witness for C3: user 1 (already following 2) adds a follow of the
fresh target 2 again; hypotheses hold at the concrete store. -/
theorem add_follow_idempotent_witness :
    followStore.getDoc 1 = some followerDoc ∧
    (followStore.getDoc 2).isSome = true ∧
    (1 : Int) ≠ 2 ∧
    followerDoc.following.count 2 ≤ 1 ∧
    ∃ s₁ fl tr,
      add_follow followStore 1 2 = (.ok (s₁, fl), tr) ∧
      fl.count 2 = 1 ∧
      (2 ∈ followerDoc.following → s₁ = followStore ∧ fl = followerDoc.following ∧ tr = []) ∧
      (2 ∉ followerDoc.following → fl = followerDoc.following ++ [2] ∧ tr = [Eff.update 1 fl]) ∧
      add_follow s₁ 1 2 = (.ok (s₁, fl), []) :=
  ⟨rfl, rfl, by decide, by decide,
    add_follow_idempotent followStore 1 2 followerDoc rfl rfl (by decide) (by decide)⟩

/-- C1: For every existing single requester, the client-side Matches
returns the candidate profiles (a permutation of the store-ordered
scored hits, projected to users) sorted ascending by the key
`(-common, distance)` where `common` is the cardinality of the
intersection of the two interest sets and `distance` the great-circle
distance; the sort is stable: candidates equal on both keys keep the
order in which the store returned them. -/
theorem matches_sorted_stable (s : Store) (uid : Int) (d : Doc)
    (hd : s.getDoc uid = some d) (hs : d.status = Status.single) :
    ∃ recs : List MatchRec,
      get_matches2 s uid = (.ok (recs.map MatchRec.user), [Eff.search]) ∧
      recs.Perm ((s.searchSingles uid).map (mkRec2 d)) ∧
      recs.Pairwise KeyLE ∧
      ∀ a b : MatchRec, a.key = b.key →
        [a, b].Sublist ((s.searchSingles uid).map (mkRec2 d)) →
        [a, b].Sublist recs := by
  refine ⟨((s.searchSingles uid).map (mkRec2 d)).mergeSort keyLe, ?_, ?_, ?_, ?_⟩
  · simp [get_matches2, hd, hs]
  · exact List.mergeSort_perm _ keyLe
  · refine (List.sorted_mergeSort keyLe_trans keyLe_total _).imp ?_
    intro a b h
    simpa [keyLe] using h
  · intro a b hk hsub
    refine List.pair_sublist_mergeSort keyLe_trans keyLe_total ?_ hsub
    simpa [keyLe] using KeyLE_of_key_eq hk

/-- Witness for C1 at the two-single-users store. -/
theorem matches_sorted_stable_witness :
    matchStore.getDoc 1 = some matchDoc ∧
    matchDoc.status = Status.single ∧
    ∃ recs : List MatchRec,
      get_matches2 matchStore 1 = (.ok (recs.map MatchRec.user), [Eff.search]) ∧
      recs.Perm ((matchStore.searchSingles 1).map (mkRec2 matchDoc)) ∧
      recs.Pairwise KeyLE ∧
      ∀ a b : MatchRec, a.key = b.key →
        [a, b].Sublist ((matchStore.searchSingles 1).map (mkRec2 matchDoc)) →
        [a, b].Sublist recs :=
  ⟨rfl, rfl, matches_sorted_stable matchStore 1 matchDoc rfl rfl⟩

/-- C2: For every existing user U with following list F, Suggestions(U)
succeeds and returns exactly the profiles whose ids lie in the union of
the following sets of the existing members of F, with U itself and every
member of F removed, each qualifying id contributing at most one profile
(the returned ids are nodup), and ids that no longer exist at
materialization time silently dropped. -/
theorem suggestions_exact (s : Store) (u : Int) (d : Doc)
    (hd : s.getDoc u = some d) :
    ∃ l, get_user_suggestions s u = .ok l ∧
      (∀ p, p ∈ l ↔ ∃ sid dd, s.getDoc sid = some dd ∧ sid ≠ u ∧
        sid ∉ d.following ∧
        (∃ f ∈ d.following, ∃ df, s.getDoc f = some df ∧ sid ∈ df.following) ∧
        p = mkSuggestion sid dd) ∧
      (l.map UserSuggestion.id).Nodup := by
  refine ⟨((discardAll ((suggestedIds s d.following).erase u) d.following).sort
      (fun a b => a ≤ b)).filterMap
      (fun sid => (s.getDoc sid).map (mkSuggestion sid)), ?_, ?_, ?_⟩
  · simp [get_user_suggestions, hd]
  · intro p
    constructor
    · intro hp
      obtain ⟨sid, hsid, hf⟩ := List.mem_filterMap.mp hp
      obtain ⟨dd, hdd, hmk⟩ := Option.map_eq_some'.mp hf
      have hcand := (Finset.mem_sort (α := ℤ) (fun a b => a ≤ b)).mp hsid
      rw [mem_discardAll, Finset.mem_erase, mem_suggestedIds] at hcand
      obtain ⟨⟨hne, hsugg⟩, hnF⟩ := hcand
      exact ⟨sid, dd, hdd, hne, hnF, hsugg, hmk.symm⟩
    · rintro ⟨sid, dd, hdd, hne, hnF, hsugg, rfl⟩
      apply List.mem_filterMap.mpr
      refine ⟨sid, ?_, ?_⟩
      · apply (Finset.mem_sort (α := ℤ) (fun a b => a ≤ b)).mpr
        rw [mem_discardAll, Finset.mem_erase, mem_suggestedIds]
        exact ⟨⟨hne, hsugg⟩, hnF⟩
      · rw [hdd]
        rfl
  · rw [List.map_filterMap]
    apply List.Nodup.filterMap ?_ (Finset.sort_nodup _ _)
    intro a a' b hb hb'
    simp only [Option.mem_def, Option.map_map, Option.map_eq_some'] at hb hb'
    obtain ⟨x, -, hx⟩ := hb
    obtain ⟨x', -, hx'⟩ := hb'
    have ha : a = b := hx
    have ha' : a' = b := hx'
    exact ha.trans ha'.symm

/-- Witness for C2 at the three-user suggestion store. -/
theorem suggestions_exact_witness :
    suggestStore.getDoc 1 = some suggesterDoc ∧
    ∃ l, get_user_suggestions suggestStore 1 = .ok l ∧
      (∀ p, p ∈ l ↔ ∃ sid dd, suggestStore.getDoc sid = some dd ∧ sid ≠ 1 ∧
        sid ∉ suggesterDoc.following ∧
        (∃ f ∈ suggesterDoc.following, ∃ df,
          suggestStore.getDoc f = some df ∧ sid ∈ df.following) ∧
        p = mkSuggestion sid dd) ∧
      (l.map UserSuggestion.id).Nodup :=
  ⟨rfl, suggestions_exact suggestStore 1 suggesterDoc rfl⟩

/-- C10: Every profile returned by the status-aware Suggestions variant
has an empty `following` list in the returned value, regardless of the
candidate's stored following set. -/
theorem suggestions_status_hide_following (s : Store) (uid : Int)
    (l : List UserOut) (h : get_user_suggestions_status s uid = .ok l) :
    ∀ p ∈ l, p.following = [] := by
  intro p hp
  cases hd : s.getDoc uid with
  | none =>
    simp only [get_user_suggestions_status, hd] at h
    exact Except.noConfusion h
  | some d =>
    simp only [get_user_suggestions_status, hd] at h
    by_cases hs : d.status ≠ Status.single
    · rw [if_pos hs] at h
      injection h with h'
      subst h'
      cases hp
    · rw [if_neg hs] at h
      injection h with h'
      subst h'
      obtain ⟨sid, hsid, hf⟩ := List.mem_filterMap.mp hp
      cases hget : s.getDoc sid with
      | none =>
        rw [hget] at hf
        cases hf
      | some dd =>
        rw [hget] at hf
        simp only [Option.some_bind] at hf
        by_cases hds : dd.status = Status.single
        · rw [if_pos hds] at hf
          injection hf with hf'
          rw [← hf']
          rfl
        · rw [if_neg hds] at hf
          cases hf

/-- Concrete evaluation of the status-aware suggestions at the
three-user store: only user 3 is suggested, with `following := []`. -/
theorem suggestStore_status_eval :
    get_user_suggestions_status suggestStore 1 = .ok [mkSuggestionUser 3 {}] := by
  have hget : suggestStore.getDoc 1 = some suggesterDoc := rfl
  have hset : discardAll ((suggestedIds suggestStore
      suggesterDoc.following).erase 1) suggesterDoc.following = {3} := by decide
  simp only [get_user_suggestions_status, hget]
  rw [if_neg (by decide), hset, Finset.sort_singleton]
  rfl

/-- Witness for C10 at the three-user store. -/
theorem suggestions_status_hide_following_witness :
    get_user_suggestions_status suggestStore 1 = .ok [mkSuggestionUser 3 {}] ∧
    ∀ p ∈ [mkSuggestionUser 3 ({} : Doc)], p.following = [] :=
  ⟨suggestStore_status_eval,
    suggestions_status_hide_following suggestStore 1 [mkSuggestionUser 3 {}]
      suggestStore_status_eval⟩

/-- C7 counterexample: at `dupStore` — a requester whose stored hobby
list holds the tag "a" twice — the client-side formulation ties the two
candidates at one common interest each and orders by distance, while the
store-native script counts the duplicated tag twice and puts the farther
candidate first, so the two formulations return different orderings. -/
theorem match_formulations_differ :
    (get_matches2 dupStore 1).1 ≠ (get_matches_native dupStore 1).1 := by
  have hreq : dupStore.getDoc 1 = some dupDocReq := rfl
  have hhits : dupStore.searchSingles 1 = [(2, dupDocX), (3, dupDocY)] := rfl
  have hdistX : (mkRec2 dupDocReq (2, dupDocX)).dist =
      calculate_distance 0 0 1 0 := rfl
  have hdistY : (mkRec2 dupDocReq (3, dupDocY)).dist =
      calculate_distance 0 0 0 0 := rfl
  have hcX : (mkRec2 dupDocReq (2, dupDocX)).common = 1 := by decide
  have hcY : (mkRec2 dupDocReq (3, dupDocY)).common = 1 := by decide
  have hKxy : keyLe (mkRec2 dupDocReq (2, dupDocX))
      (mkRec2 dupDocReq (3, dupDocY)) = false := by
    simp only [keyLe]
    rw [decide_eq_false_iff_not]
    intro hK
    rcases hK with hlt | ⟨-, hle⟩
    · rw [hcX, hcY] at hlt
      exact absurd hlt (lt_irrefl _)
    · rw [hdistX, hdistY, calculate_distance_self] at hle
      exact absurd hle (not_le.mpr calculate_distance_one_lat_pos)
  have hNxy : nativeLe dupDocReq (2, dupDocX) (3, dupDocY) = true := by
    simp only [nativeLe]
    rw [show ∀ (p : Prop) (inst : Decidable p), (decide p = true) = p from
      fun p inst => decide_eq_true_eq]
    refine Or.inl ?_
    have h1 : scriptCommon dupDocReq.hobbies (2, dupDocX).2 = 2 := by decide
    have h2 : scriptCommon dupDocReq.hobbies (3, dupDocY).2 = 1 := by decide
    rw [h1, h2]
    decide
  have hclient : (get_matches2 dupStore 1).1 =
      .ok [mkMatchUser 3 dupDocY, mkMatchUser 2 dupDocX] := by
    simp only [get_matches2, hreq]
    rw [if_neg (by decide), hhits]
    simp only [List.map_cons, List.map_nil]
    rw [mergeSort_pair, hKxy]
    simp
    exact ⟨rfl, rfl⟩
  have hnative : (get_matches_native dupStore 1).1 =
      .ok [mkMatchUser 2 dupDocX, mkMatchUser 3 dupDocY] := by
    simp only [get_matches_native, hreq, esSortMatches]
    rw [if_neg (by decide), hhits]
    rw [mergeSort_pair, hNxy]
    simp
  intro heq
  rw [hclient, hnative] at heq
  injection heq with heq'
  have h0 := congrArg (fun l => (l.headD (mkMatchUser 0 {})).id) heq'
  exact absurd h0 (by decide)

/-- C7 (amended): the store-native and the client-side Matches
formulations produce identical results for every requester and store
state, provided the requester's stored interest list contains no
duplicate tag (interests form a set); with a duplicated tag the painless
script counts it once per occurrence while the client-side set
intersection counts it once. -/
theorem match_formulations_agree (s : Store) (uid : Int)
    (h : ∀ d, s.getDoc uid = some d → d.hobbies.Nodup) :
    get_matches2 s uid = get_matches_native s uid := by
  cases hd : s.getDoc uid with
  | none => simp [get_matches2, get_matches_native, hd]
  | some d =>
    have hnd := h d hd
    simp only [get_matches2, get_matches_native, hd, esSortMatches]
    by_cases hs : d.status ≠ Status.single
    · rw [if_pos hs, if_pos hs]
    · rw [if_neg hs, if_neg hs]
      have hmap := @List.map_mergeSort (Int × Doc) MatchRec (nativeLe d) keyLe
        (mkRec2 d) (s.searchSingles uid)
        (fun a _ b _ => nativeLe_eq_keyLe d hnd a b)
      rw [← hmap, List.map_map]
      rfl

/-- Witness for the amended C7: the duplicate-free store. -/
theorem match_formulations_agree_witness :
    get_matches2 matchStore 1 = get_matches_native matchStore 1 :=
  match_formulations_agree matchStore 1 (fun d hd => by
    rw [show matchStore.getDoc 1 = some matchDoc from rfl] at hd
    injection hd with hd'
    subst hd'
    decide)

end PyElastic
